import Mathlib

/-!
Verification development for the omegga log-stream supervisor.

The definitions below are a shallow embedding of the repository's code:
* `src/omegga/matchers/exit.js` (the exit matcher),
* `src/omegga/player.ts` (the Player class and its derived queries),
* `src/cli/terminal.js` (the interactive terminal's line handler),
plus a model, taken from the specification, of the chunk-collector engine
whose implementation lives outside the provided sources.

JavaScript strings are modelled as Lean `String` (one `Char` per code
point), JS `undefined` as `Option.none`, promise rejection as
`Except.error`, and the numeric result of JS `Number` as `Option ℚ`
(`none` standing for `NaN`).
-/

/-- JS regex `.` (no `s` flag): any character except the four ECMAScript
line terminators `\n`, `\r`, U+2028, U+2029. -/
def jsDot (c : Char) : Bool :=
  !(c == '\n' || c == '\r' || c == '\u2028' || c == '\u2029')

/-- The ECMAScript whitespace set recognised by `String.prototype.trim`
(WhiteSpace and LineTerminator code points). -/
def jsWhitespaceChar (c : Char) : Bool :=
  c == ' ' || c == '\t' || c == '\n' || c == '\u000b' || c == '\u000c' ||
  c == '\r' || c == '\u00a0' || c == '\u1680' ||
  ('\u2000' ≤ c && c ≤ '\u200a') ||
  c == '\u2028' || c == '\u2029' || c == '\u202f' || c == '\u205f' ||
  c == '\u3000' || c == '\ufeff'

/-- JS `String.prototype.trim`: strip JS whitespace from both ends. -/
def jsTrim (s : String) : String :=
  ⟨((s.data.dropWhile jsWhitespaceChar).reverse.dropWhile jsWhitespaceChar).reverse⟩

/-- Value of a list of decimal digit characters. -/
def digitsVal (l : List Char) : Nat :=
  l.foldl (fun n c => n * 10 + (c.toNat - 48)) 0

/-- JS `Number(string)` restricted to the decimal literals that occur in
this code base: optional sign, digits with an optional fraction part.
`none` models `NaN`; the empty (or all-whitespace) string converts to 0
as in JS. -/
def jsNumberQ (s : String) : Option ℚ :=
  let t := (jsTrim s).data
  if t = [] then some 0
  else
    let (neg, ds) :=
      match t with
      | '-' :: rest => (true, rest)
      | '+' :: rest => (false, rest)
      | rest => (false, rest)
    let intPart := ds.takeWhile (fun c => decide (c ≠ '.'))
    let rest := ds.dropWhile (fun c => decide (c ≠ '.'))
    let fracPart := rest.drop 1
    if !(intPart.all Char.isDigit && fracPart.all Char.isDigit) then none
    else if intPart = [] ∧ fracPart = [] then none
    else
      let mag : ℚ :=
        (digitsVal intPart : ℚ) + (digitsVal fracPart : ℚ) / ((10 : ℚ) ^ fracPart.length)
      some (if neg then -mag else mag)

/-! ### The exit matcher (`src/omegga/matchers/exit.js`) -/

/-- The tokenizer's output for a generic console log line: the log
category and the message body (`logMatch.groups` in the source). -/
structure ParsedLine where
  generator : String
  data : String
deriving DecidableEq, Repr

/-- One alternative of the regex `^(A|B).$`: the text is the literal
alternative followed by exactly one `.`-matchable character. -/
def matchLitThenDot (lit : List Char) (d : List Char) : Bool :=
  match lit, d with
  | [], [c] => jsDot c
  | p :: ps, c :: cs => c == p && matchLitThenDot ps cs
  | _, _ => false

/-- JS `generator.match(/^Log(Exit|AuthManager)$/)` viewed as a boolean:
anchored on both ends, so it holds exactly for the two literal strings. -/
def exitGeneratorMatch (g : String) : Bool :=
  g == "LogExit" || g == "LogAuthManager"

/-- JS `data.match(/^(Shutting down Auth Manager|Exiting).$/)` viewed as
a boolean. -/
def exitDataMatch (d : String) : Bool :=
  matchLitThenDot "Shutting down Auth Manager".data d.data ||
  matchLitThenDot "Exiting".data d.data

/-- The exit matcher's `pattern(_line, logMatch)`: `undefined` (falsy)
when the line is not a generic console log, otherwise the conjunction of
the two regex tests.  The raw line parameter is received but never
used, exactly as in the source. -/
def exitPattern (_line : String) (logMatch : Option ParsedLine) : Bool :=
  match logMatch with
  | none => false
  | some pl => exitGeneratorMatch pl.generator && exitDataMatch pl.data

/-- The exit matcher's `callback()`: the list of events it emits on the
omegga event bus. -/
def exitCallbackEvents : List String := ["exit"]


/-! ### Roles, permissions, and the Player class (`src/omegga/player.ts`) -/

/-- A role's permission entry `{name, state}` where `state` is one of
`Unchanged` / `Allowed` / `Forbidden` (or a server-side boolean). -/
structure RolePermEntry where
  name : String
  state : String
deriving DecidableEq, Repr

/-- A server role: its name and its permission entries. -/
structure Role where
  name : String
  permissions : List RolePermEntry
deriving DecidableEq, Repr

/-- The role setup returned by `omegga.getRoleSetup()`, restricted to the
fields `getPermissions` reads. -/
structure RoleSetup where
  defaultRole : Role
  roles : List Role
deriving DecidableEq, Repr

/-- The Omegga server context, restricted to the state the Player class
consults: the host's id, the role setup, and the saved role
assignments (`getRoleAssignments().savedPlayerRoles` as an association
list from player uuid to role-name list). -/
structure Omegga where
  hostId : String
  roleSetup : RoleSetup
  savedPlayerRoles : List (String × List String)
deriving DecidableEq, Repr

/-- A JS object with boolean-or-undefined values, as an insertion-ordered
association list; an entry `(k, none)` models a property whose stored
value is `undefined`. -/
abbrev JsObj := List (String × Option Bool)

/-- Whether the object has the key. -/
def objHas (o : JsObj) (k : String) : Bool :=
  o.any (fun e => e.1 == k)

/-- JS property read `o[k]`: `undefined` when the key is absent. -/
def objRead (o : JsObj) (k : String) : Option Bool :=
  match o.find? (fun e => e.1 == k) with
  | some e => e.2
  | none => none

/-- JS property write `o[k] = v`: overwrite in place when the key exists,
otherwise append in insertion order. -/
def objSet (o : JsObj) (k : String) (v : Option Bool) : JsObj :=
  if objHas o k then o.map (fun e => if e.1 = k then (k, v) else e)
  else o ++ [(k, v)]

/-- JS `Object.fromEntries`: later duplicate keys overwrite the value but
keep the first insertion position. -/
def objFromEntries (l : List (String × Option Bool)) : JsObj :=
  l.foldl (fun o e => objSet o e.1 e.2) []

/-- The `DEFAULT_PERMS` table at the top of `player.ts`, keyed by
lowercase role name (absent keys give `[]`, modelling `|| []`). -/
def DEFAULT_PERMS (role : String) : List String :=
  if role = "moderator" then
    ["Bricks.ClearAll", "Minigame.AlwaysLeave", "Players.Kick",
     "Players.TPInMinigame", "Players.TPOthers", "Self.Ghost"]
  else if role = "admin" then
    ["Bricks.ClearAll", "Bricks.ClearOwn", "Bricks.IgnoreTrust", "Bricks.Load",
     "Map.Environment", "Minigame.AlwaysEdit", "Minigame.AlwaysLeave",
     "Minigame.AlwaysSwitchTeam", "Minigame.MakeDefault", "Minigame.MakePersistent",
     "Minigame.UseAllBricks", "Players.Ban", "Players.Kick", "Players.TPInMinigame",
     "Players.TPOthers", "Roles.Grant", "Self.Ghost", "Server.ChangeRoles",
     "Server.ChangeSettings", "Server.FreezeCamera", "Tools.Selector.BypassLimits",
     "Tools.Selector.BypassTimeouts"]
  else []

/-- The default (non-host) player permissions object literal inside
`getPermissions`. -/
def defaultPermissions : JsObj :=
  [("Bricks.ClearAll", some false), ("Bricks.ClearOwn", some true),
   ("Bricks.Delete", some true), ("Bricks.Edit", some true),
   ("Bricks.IgnoreTrust", some false), ("Bricks.Paint", some true),
   ("Bricks.Place", some true), ("BricksItems.Spawn", some true),
   ("Map.Change", some false), ("Map.Environment", some false),
   ("Map.SetSpawn", some false), ("Minigame.AlwaysEdit", some false),
   ("Minigame.AlwaysLeave", some false), ("Minigame.AlwaysSwitchTeam", some false),
   ("Minigame.Create", some true), ("Minigame.MakePersistent", some false),
   ("Minigame.UseAllBricks", some false), ("Players.Ban", some false),
   ("Players.TPInMinigame", some false), ("Players.TPOthers", some false),
   ("Players.TPSelf", some true), ("Roles.Grant", some false),
   ("Self.Flashlight", some true), ("Self.Fly", some true),
   ("Self.FreezeCamera", some false), ("Self.Ghost", some false),
   ("Self.Sprint", some true), ("Self.Suicide", some true),
   ("Tools.Selector.Use", some true)]

/-- The Player class: the Omegga instance received by reference at
construction plus the four data fields, in constructor order. -/
structure Player where
  omegga : Omegga
  name : String
  id : String
  controller : String
  state : String
deriving DecidableEq, Repr

/-- `getOmegga()`: returns the stored Omegga reference. -/
def Player.getOmegga (p : Player) : Omegga := p.omegga

/-- `clone()`: a new Player built from the same omegga and fields. -/
def Player.clone (p : Player) : Player :=
  Player.mk p.omegga p.name p.id p.controller p.state

/-- `raw()`: the tuple `[name, id, controller, state]` fed back into the
constructor. -/
def Player.raw (p : Player) : String × String × String × String :=
  (p.name, p.id, p.controller, p.state)

/-- `isHost()`. -/
def Player.isHost (p : Player) : Bool := p.omegga.hostId == p.id

/-- Static `Player.getRoles`: the saved roles for the uuid, `[]` when the
player has no entry. -/
def Player.getRoles (omegga : Omegga) (id : String) : List String :=
  match omegga.savedPlayerRoles.find? (fun e => e.1 == id) with
  | some e => e.2
  | none => []

/-- A permissions map together with the `Object.freeze` marker applied to
the value `getPermissions` returns. -/
structure FrozenPerms where
  entries : JsObj
  frozen : Bool
deriving DecidableEq, Repr

/-- The entry list the host branch of `getPermissions` builds:
`[].concat(defaultRole..., ...roles...)` with every value `true`. -/
def hostPermEntries (setup : RoleSetup) : List (String × Option Bool) :=
  (setup.defaultRole.permissions.map (fun p => (p.name, some true))) ++
  (setup.roles.map (fun r => r.permissions.map (fun p => (p.name, some true)))).flatten

/-- Static `Player.getPermissions`, translated clause by clause from
`player.ts`: the host branch freezes an all-`true` map over every
permission name listed in the default role or any role; the non-host
branch starts from `defaultPermissions` and folds the default role's
entries, then each of the player's roles. -/
def Player.getPermissions (omegga : Omegga) (id : String) : FrozenPerms :=
  let setup := omegga.roleSetup
  if omegga.hostId = id then
    ⟨objFromEntries (hostPermEntries setup), true⟩
  else
    let playerRoles := (Player.getRoles omegga id).map String.toLower
    let perms1 := setup.defaultRole.permissions.foldl
      (fun acc p => objSet acc p.name
        (if p.state = "Unchanged" then objRead acc p.name
         else some (p.state == "Allowed")))
      defaultPermissions
    let perms2 := setup.roles.foldl
      (fun acc role =>
        if !(playerRoles.contains role.name.toLower) then acc
        else
          let acc1 := (DEFAULT_PERMS role.name.toLower).foldl
            (fun a perm =>
              if (role.permissions.find? (fun r => r.name == perm)).isNone
              then objSet a perm (some true) else a) acc
          role.permissions.foldl
            (fun a p => objSet a p.name
              (if p.state = "Forbidden" then some false
               else if p.state = "Unchanged" then objRead a p.name
               else if objRead a p.name = some true then some true
               else some (p.state == "Allowed")))
            acc1)
      perms1
    ⟨perms2, true⟩

/-- Instance method `player.getRoles()`. -/
def Player.rolesOf (p : Player) : List String := Player.getRoles p.omegga p.id

/-- Instance method `player.getPermissions()`. -/
def Player.permissionsOf (p : Player) : FrozenPerms :=
  Player.getPermissions p.omegga p.id

/-- The player module's top-level effect outside the class definition:
`player.ts` ends with the statement `global.Player = Player`, so the
module binds the name `Player` on the implicit JS global object. -/
def playerModuleGlobalBindings : List String := ["Player"]

/-! ### Watcher correlations and `getPosition` (`src/omegga/player.ts`) -/

/-- A single-shot correlation request handed to `omegga.addWatcher`: the
regex source, the command the `exec` trigger writes, and the
`timeoutDelay` option. -/
structure WatcherCall where
  pattern : String
  cmd : String
  timeoutDelay : Nat
deriving DecidableEq, Repr

/-- Errors a derived query can surface: a correlation timing out, or the
JS TypeError raised when destructuring an empty match list. -/
inductive JsErr
  | timeout
  | typeErr
deriving DecidableEq, Repr

/-- A resolved match: the named-capture-group map of one line.  All
values are strings; the engine performs no numeric coercion. -/
abbrev GroupMap := List (String × String)

/-- Read a named capture group from a match; `undefined` when absent. -/
def groupOf (m : GroupMap) (k : String) : Option String :=
  match m.find? (fun e => e.1 == k) with
  | some e => some e.2
  | none => none

/-- Text of the pawn regex before the interpolated controller name. -/
def pawnPatternPre : String :=
  "BP_PlayerController_C .+?PersistentLevel\\."

/-- Text of the pawn regex after the interpolated controller name. -/
def pawnPatternPost : String :=
  "\\.Pawn = BP_FigureV2_C\x27.+?:PersistentLevel.(?<pawn>BP_FigureV2_C_\\d+)\x27"

/-- The first watcher `getPosition` registers: its regex embeds the
player's controller and captures the pawn name. -/
def pawnCall (controller : String) : WatcherCall :=
  ⟨pawnPatternPre ++ controller ++ pawnPatternPost,
   "GetAll BP_PlayerController_C Pawn Name=" ++ controller, 100⟩

/-- Text of the position regex before the interpolated pawn name. -/
def posPatternPre : String :=
  "CapsuleComponent .+?PersistentLevel\\."

/-- Text of the position regex after the interpolated pawn name. -/
def posPatternPost : String :=
  "\\.CollisionCylinder\\.RelativeLocation = \\(X=(?<x>[\\d\\.-]+),Y=(?<y>[\\d\\.-]+),Z=(?<z>[\\d\\.-]+)\\)"

/-- The second watcher `getPosition` registers: its regex embeds the
captured pawn and captures the x, y, z coordinates. -/
def posCall (pawn : String) : WatcherCall :=
  ⟨posPatternPre ++ pawn ++ posPatternPost,
   "GetAll SceneComponent RelativeLocation Name=CollisionCylinder Outer=" ++ pawn, 100⟩

/-- `getPosition`, with the correlation engine abstracted as `env`: for
each request, `env` yields the match list the awaited `addWatcher`
promise resolves with, or its rejection.  Returns the requests issued in
order together with the outcome; on success the outcome is
`[x, y, z].map(Number)` — the caller coerces the captured strings. -/
def getPosition (env : WatcherCall → Except JsErr (List GroupMap))
    (controller : String) :
    List WatcherCall × Except JsErr (List (Option ℚ)) :=
  let c1 := pawnCall controller
  match env c1 with
  | .error e => ([c1], .error e)
  | .ok [] => ([c1], .error .typeErr)
  | .ok (m1 :: _) =>
    let pawn := (groupOf m1 "pawn").getD "undefined"
    let c2 := posCall pawn
    match env c2 with
    | .error e => ([c1, c2], .error e)
    | .ok [] => ([c1, c2], .error .typeErr)
    | .ok (m2 :: _) =>
      ([c1, c2],
       .ok [jsNumberQ ((groupOf m2 "x").getD "undefined"),
            jsNumberQ ((groupOf m2 "y").getD "undefined"),
            jsNumberQ ((groupOf m2 "z").getD "undefined")])

/-! ### Chunk-collector queries issued by the Player derived queries -/

/-- Options passed to `omegga.watchLogChunk`. -/
structure ChunkOpts where
  first : Option String
  timeoutDelay : Option Nat
deriving DecidableEq, Repr

/-- A bulk-enumeration request: command, regex source, options. -/
structure ChunkCall where
  cmd : String
  pattern : String
  opts : ChunkOpts
deriving DecidableEq, Repr

/-- Regex source of `ownerRegExp` in `getGhostBrick`. -/
def ghostOwnerPattern : String :=
  "^(?<index>\\d+)\\) BrickGridPreviewActor (.+):PersistentLevel\\.(?<actor>BrickGridPreviewActor_\\d+)\\.Owner = BP_PlayerController_C\x27(.+):PersistentLevel\\.(?<controller>BP_PlayerController_C_\\d+)\x27$"

/-- Regex source of `transformParamsRegExp` in `getGhostBrick`. -/
def ghostTransformPattern : String :=
  "^(?<index>\\d+)\\) BrickGridPreviewActor (.+):PersistentLevel\\.(?<actor>BrickGridPreviewActor_\\d+)\\.TransformParameters = \\(TargetGrid=(\x22(?<targetGrid>.+)\x22|None),Position=\\(X=(?<x>.+),Y=(?<y>.+),Z=(?<z>.+)\\),Orientation=(?<orientation>.+)\\)$"

/-- The two chunk queries `getGhostBrick` dispatches in its
`Promise.all`. -/
def ghostBrickChunkCalls : List ChunkCall :=
  [⟨"GetAll BrickGridPreviewActor Owner", ghostOwnerPattern,
    ⟨some "index", some 500⟩⟩,
   ⟨"GetAll BrickGridPreviewActor TransformParameters", ghostTransformPattern,
    ⟨some "index", some 500⟩⟩]

/-- Regex source of `ownerRegExp` in `getPaint`. -/
def paintOwnerPattern : String :=
  "^(?<index>\\d+)\\) BP_Item_PaintTool_C (.+):PersistentLevel\\.(?<actor>BP_Item_PaintTool_C_\\d+)\\.Owner = BP_PlayerController_C\x27(.+):PersistentLevel\\.(?<controller>BP_PlayerController_C_\\d+)\x27$"

/-- Regex source of `colorRegExp` in `getPaint`. -/
def paintColorPattern : String :=
  "^(?<index>\\d+)\\) BP_Item_PaintTool_C (.+):PersistentLevel\\.(?<actor>BP_Item_PaintTool_C_\\d+)\\.SelectedColor = \\(B=(?<b>.+),G=(?<g>.+),R=(?<r>.+),A=(?<a>.+)\\)$"

/-- Regex source of `materialRegExp` in `getPaint`. -/
def paintMaterialPattern : String :=
  "^(?<index>\\d+)\\) BP_Item_PaintTool_C (.+):PersistentLevel\\.(?<actor>BP_Item_PaintTool_C_\\d+)\\.SelectedMaterialId = (?<materialIndex>\\d+)$"

/-- Regex source of `materialAlphaRegExp` in `getPaint`. -/
def paintMaterialAlphaPattern : String :=
  "^(?<index>\\d+)\\) BP_Item_PaintTool_C (.+):PersistentLevel\\.(?<actor>BP_Item_PaintTool_C_\\d+)\\.SelectedMaterialAlpha = (?<materialAlpha>\\d+)$"

/-- The four chunk queries `getPaint` dispatches in its `Promise.all`:
Owner, SelectedColor, SelectedMaterialId, SelectedMaterialAlpha of
`BP_Item_PaintTool_C`, each anchored with `first: 'index'` and
`timeoutDelay: 500`. -/
def paintChunkCalls : List ChunkCall :=
  [⟨"GetAll BP_Item_PaintTool_C Owner", paintOwnerPattern,
    ⟨some "index", some 500⟩⟩,
   ⟨"GetAll BP_Item_PaintTool_C SelectedColor", paintColorPattern,
    ⟨some "index", some 500⟩⟩,
   ⟨"GetAll BP_Item_PaintTool_C SelectedMaterialId", paintMaterialPattern,
    ⟨some "index", some 500⟩⟩,
   ⟨"GetAll BP_Item_PaintTool_C SelectedMaterialAlpha", paintMaterialAlphaPattern,
    ⟨some "index", some 500⟩⟩]

/-- Regex source of `brickTemplateRegExp` in `getTemplateBounds`. -/
def brickTemplatePattern : String :=
  "^(?<index>\\d+)\\) BP_PlayerController_C (.+):PersistentLevel\\.(?<controller>BP_PlayerController_C_\\d+)\\.TEMP_BrickTemplate_Server = BrickBuildingTemplate\x27(.+)Transient.(?<templateName>BrickBuildingTemplate_\\d+)\x27$"

/-- Regex source of `minBoundsRegExp` in `getTemplateBounds`. -/
def minBoundsPattern : String :=
  "^(?<index>\\d+)\\) BrickBuildingTemplate (.+)Transient\\.(?<templateName>BrickBuildingTemplate_\\d+)\\.MinBounds = \\(X=(?<x>.+),Y=(?<y>.+),Z=(?<z>.+)\\)$"

/-- Regex source of `maxBoundsRegExp` in `getTemplateBounds`. -/
def maxBoundsPattern : String :=
  "^(?<index>\\d+)\\) BrickBuildingTemplate (.+)Transient\\.(?<templateName>BrickBuildingTemplate_\\d+)\\.MaxBounds = \\(X=(?<x>.+),Y=(?<y>.+),Z=(?<z>.+)\\)$"

/-- Regex source of `centerRegExp` in `getTemplateBounds`. -/
def centerPattern : String :=
  "^(?<index>\\d+)\\) BrickBuildingTemplate (.+)Transient\\.(?<templateName>BrickBuildingTemplate_\\d+)\\.Center = \\(X=(?<x>.+),Y=(?<y>.+),Z=(?<z>.+)\\)$"

/-- The four chunk queries `getTemplateBounds` dispatches in its
`Promise.all` (the first command embeds the controller; none of the four
passes a `timeoutDelay`). -/
def templateBoundsChunkCalls (controller : String) : List ChunkCall :=
  [⟨"GetAll BP_PlayerController_C TEMP_BrickTemplate_Server Name=" ++ controller,
    brickTemplatePattern, ⟨some "index", none⟩⟩,
   ⟨"GetAll BrickBuildingTemplate MinBounds", minBoundsPattern,
    ⟨some "index", none⟩⟩,
   ⟨"GetAll BrickBuildingTemplate MaxBounds", maxBoundsPattern,
    ⟨some "index", none⟩⟩,
   ⟨"GetAll BrickBuildingTemplate Center", centerPattern,
    ⟨some "index", none⟩⟩]

/-- All `watchLogChunk` invocations issued by the three Player bulk
query methods, in source order. -/
def playerChunkCalls (controller : String) : List ChunkCall :=
  ghostBrickChunkCalls ++ paintChunkCalls ++ templateBoundsChunkCalls controller

/-- The name of the leading capture group of a regex source string: skip
escaped characters and inspect the first unescaped `(`, which names a
group only in the `(?<name>` form. -/
def leadingNamedCaptureAux : List Char → Option (List Char)
  | [] => none
  | ['\\'] => none
  | '\\' :: _ :: rest => leadingNamedCaptureAux rest
  | '(' :: '?' :: '<' :: rest => some (rest.takeWhile (fun c => decide (c ≠ '>')))
  | '(' :: _ => none
  | _ :: rest => leadingNamedCaptureAux rest

/-- The leading capture-group name of a regex source, as a string. -/
def leadingNamedCapture (s : String) : Option String :=
  (leadingNamedCaptureAux s.data).map (fun l => ⟨l⟩)


/-! ### Result logic of the derived queries (`src/omegga/player.ts`)

Each method awaits a `Promise.all` of chunk queries and then inspects
the collected sequences.  The functions below take the outcome of each
chunk query (`Except.error` for a rejected correlation) and compute the
method's own outcome; `Promise.all` rejects whenever one input rejects,
modelled here by the `Except` bind. -/

/-- One `ownerRegExp` match in `getGhostBrick`. -/
structure GhostOwnerMatch where
  index : String
  actor : String
  controller : String
deriving DecidableEq, Repr

/-- One `transformParamsRegExp` match in `getGhostBrick`; `targetGrid`
is `none` when the `None` alternative matched. -/
structure GhostTransformMatch where
  index : String
  actor : String
  targetGrid : Option String
  x : String
  y : String
  z : String
  orientation : String
deriving DecidableEq, Repr

/-- The record `getGhostBrick` resolves with on success. -/
structure GhostBrickData where
  targetGrid : Option String
  location : List (Option ℚ)
  orientation : String
deriving DecidableEq, Repr

/-- The tail of `getGhostBrick` after its `Promise.all`: find the
preview actor owned by this controller, then its transform parameters;
either `find` failing resolves the method with `undefined`. -/
def ghostBrickFromChunks (controller : String)
    (owners : Except JsErr (List GhostOwnerMatch))
    (transformParams : Except JsErr (List GhostTransformMatch)) :
    Except JsErr (Option GhostBrickData) :=
  match owners, transformParams with
  | .error e, _ => .error e
  | .ok _, .error e => .error e
  | .ok owners, .ok transformParams =>
  match owners.find? (fun o => o.controller == controller) with
  | none => .ok none
  | some owner =>
    match transformParams.find? (fun t => t.actor == owner.actor) with
    | none => .ok none
    | some tp =>
      .ok (some ⟨tp.targetGrid,
        [jsNumberQ tp.x, jsNumberQ tp.y, jsNumberQ tp.z], tp.orientation⟩)

/-- One `ownerRegExp` match in `getPaint`. -/
structure PaintOwnerMatch where
  index : String
  actor : String
  controller : String
deriving DecidableEq, Repr

/-- One `colorRegExp` match in `getPaint`. -/
structure PaintColorMatch where
  index : String
  actor : String
  b : String
  g : String
  r : String
  a : String
deriving DecidableEq, Repr

/-- One `materialRegExp` match in `getPaint`. -/
structure PaintMaterialMatch where
  index : String
  actor : String
  materialIndex : String
deriving DecidableEq, Repr

/-- One `materialAlphaRegExp` match in `getPaint`. -/
structure PaintAlphaMatch where
  index : String
  actor : String
  materialAlpha : String
deriving DecidableEq, Repr

/-- The record `getPaint` resolves with on success. -/
structure PaintData where
  materialIndex : String
  materialAlpha : String
  material : Option String
  color : List (Option ℚ)
deriving DecidableEq, Repr

/-- JS array read `arr[n]` where `n = Number(s)`: an element only for a
non-negative integral in-range index, `undefined` otherwise. -/
def jsIndexAt (arr : List String) (q : Option ℚ) : Option String :=
  match q with
  | none => none
  | some q => if q.den = 1 ∧ 0 ≤ q.num then arr[q.num.toNat]? else none

/-- The tail of `getPaint` after its `Promise.all`: find the paint tool
owned by this controller, then its color, material and alpha records;
any `find` failing resolves the method with `undefined`.
`defaultMaterials` stands for
`brickUtils.BRICK_CONSTANTS.DEFAULT_MATERIALS`, whose module is outside
the provided sources. -/
def paintFromChunks (controller : String) (defaultMaterials : List String)
    (owners : Except JsErr (List PaintOwnerMatch))
    (colorMatch : Except JsErr (List PaintColorMatch))
    (materialMatch : Except JsErr (List PaintMaterialMatch))
    (materialAlphaMatch : Except JsErr (List PaintAlphaMatch)) :
    Except JsErr (Option PaintData) :=
  match owners, colorMatch, materialMatch, materialAlphaMatch with
  | .error e, _, _, _ => .error e
  | .ok _, .error e, _, _ => .error e
  | .ok _, .ok _, .error e, _ => .error e
  | .ok _, .ok _, .ok _, .error e => .error e
  | .ok owners, .ok colorMatch, .ok materialMatch, .ok materialAlphaMatch =>
  match owners.find? (fun o => o.controller == controller) with
  | none => .ok none
  | some owner =>
    match colorMatch.find? (fun c => c.actor == owner.actor),
          materialMatch.find? (fun m => m.actor == owner.actor),
          materialAlphaMatch.find? (fun m => m.actor == owner.actor) with
    | some cl, some mat, some alpha =>
      .ok (some ⟨mat.materialIndex, alpha.materialAlpha,
        jsIndexAt defaultMaterials (jsNumberQ mat.materialIndex),
        [jsNumberQ cl.r, jsNumberQ cl.g, jsNumberQ cl.b]⟩)
    | _, _, _ => .ok none

/-- One `brickTemplateRegExp` match in `getTemplateBounds`. -/
structure TemplateNameMatch where
  index : String
  controller : String
  templateName : String
deriving DecidableEq, Repr

/-- One bounds-regex match (`MinBounds`/`MaxBounds`/`Center`) in
`getTemplateBounds`. -/
structure TemplateBoundMatch where
  index : String
  templateName : String
  x : String
  y : String
  z : String
deriving DecidableEq, Repr

/-- The record `getTemplateBounds` resolves with on success. -/
structure TemplateBoundsData where
  minBound : List (Option ℚ)
  maxBound : List (Option ℚ)
  center : List (Option ℚ)
deriving DecidableEq, Repr

/-- The tail of `getTemplateBounds` after its `Promise.all`: any of the
four sequences empty resolves the method with `undefined`; otherwise the
bounds of the first template are collected, and a missing bound record
again resolves with `undefined`. -/
def templateBoundsFromChunks
    (template : Except JsErr (List TemplateNameMatch))
    (minBounds maxBounds centers : Except JsErr (List TemplateBoundMatch)) :
    Except JsErr (Option TemplateBoundsData) :=
  match template, minBounds, maxBounds, centers with
  | .error e, _, _, _ => .error e
  | .ok _, .error e, _, _ => .error e
  | .ok _, .ok _, .error e, _ => .error e
  | .ok _, .ok _, .ok _, .error e => .error e
  | .ok template, .ok minBounds, .ok maxBounds, .ok centers =>
  match template.head? with
  | none => .ok none
  | some t0 =>
    if minBounds.length = 0 ∨ maxBounds.length = 0 ∨ centers.length = 0 then
      .ok none
    else
      match minBounds.find? (fun m => m.templateName == t0.templateName),
            maxBounds.find? (fun m => m.templateName == t0.templateName),
            centers.find? (fun m => m.templateName == t0.templateName) with
      | some mn, some mx, some ce =>
        .ok (some ⟨[jsNumberQ mn.x, jsNumberQ mn.y, jsNumberQ mn.z],
                   [jsNumberQ mx.x, jsNumberQ mx.y, jsNumberQ mx.z],
                   [jsNumberQ ce.x, jsNumberQ ce.y, jsNumberQ ce.z]⟩)
      | _, _, _ => .ok none

/-! ### The chunk-collector state machine

The collector engine's implementation is not among the provided source
files; the model below follows §4.3 of the specification. -/

/-- Modelled from the spec: a `MatchResult` for the spec's example
pattern with capture groups `index` (the anchor field) and `val`. -/
structure ChunkMatch where
  index : String
  val : String
deriving DecidableEq, Repr

/-- Modelled from the spec: the §8 example pattern
`^(?<index>\d+)\) (?<val>.+)$` applied to one raw line. -/
def chunkLineMatch (line : String) : Option ChunkMatch :=
  let idx := line.data.takeWhile Char.isDigit
  let rest := line.data.drop idx.length
  match idx, rest with
  | [], _ => none
  | _, ')' :: ' ' :: val =>
    if val ≠ [] ∧ val.all jsDot = true then some ⟨⟨idx⟩, ⟨val⟩⟩ else none
  | _, _ => none

/-- Modelled from the spec: a Chunk Collector's mutable state —
`accumulating = false` is the `AwaitingAnchor` state, `true` the
`Accumulating` state, with the accumulated matches in arrival order. -/
structure CollectorState where
  accumulating : Bool
  acc : List ChunkMatch
deriving DecidableEq, Repr

/-- Modelled from the spec: a collector starts awaiting its anchor with
nothing accumulated. -/
def collectorInit : CollectorState := ⟨false, []⟩

/-- Modelled from the spec: the collector's reaction to one line's match
result (with anchor field `index` and fresh-start sentinel `"0"`): a
non-matching line changes nothing; while awaiting the anchor, a match
whose anchor capture is not the sentinel is discarded without changing
state; the anchor match and every later match are appended in arrival
order. -/
def collectorStep (st : CollectorState) (m : Option ChunkMatch) :
    CollectorState :=
  match m with
  | none => st
  | some m =>
    if st.accumulating then ⟨true, st.acc ++ [m]⟩
    else if m.index = "0" then ⟨true, st.acc ++ [m]⟩
    else st

/-- Modelled from the spec: feed a sequence of raw lines to a fresh
collector. -/
def collectorRun (lines : List String) : CollectorState :=
  lines.foldl (fun st l => collectorStep st (chunkLineMatch l)) collectorInit


/-! ### The terminal line handler (`src/cli/terminal.js`) -/

/-- A user-visible terminal effect performed while handling a console
line (text shown without the ANSI color decorations of the source). -/
inductive TermEffect
  | termErr (msg : String)
  | broadcast (msg : String)
  | logLine (msg : String)
deriving DecidableEq, Repr

/-- What a console command's `fn(args)` call does, as observed by
`handleLine`: return a plain value, return a promise that resolves or
rejects, or throw synchronously — in each case after performing some
terminal effects of its own. -/
inductive HandlerRun
  | value (effects : List TermEffect)
  | promiseOk (effects : List TermEffect)
  | promiseRejected (effects : List TermEffect) (e : String)
  | thrown (effects : List TermEffect) (e : String)
deriving DecidableEq, Repr

/-- JS `line.startsWith(p)` over the underlying character lists. -/
def jsStartsWith (s pre : String) : Bool :=
  pre.data.isPrefixOf s.data

/-- JS `line.slice(n)` for a non-negative index. -/
def jsDrop (s : String) (n : Nat) : String :=
  ⟨s.data.drop n⟩

/-- JS `str.split(' ')`: split on every single space, keeping empty
fragments (the empty string yields `[""]`). -/
def splitSpaceAux (acc : List Char) : List Char → List (List Char)
  | [] => [acc.reverse]
  | c :: rest =>
    if c = ' ' then acc.reverse :: splitSpaceAux [] rest
    else splitSpaceAux (c :: acc) rest

/-- JS `str.split(' ')` as strings. -/
def jsSplitSpace (s : String) : List String :=
  (splitSpaceAux [] s.data).map (fun l => ⟨l⟩)

/-- `Terminal.handleLine`, with the registered command table `commands`
and the `sanitize` chat helper (an external module) as parameters.  The
result is `Except.error` exactly when the handler would propagate an
exception to its caller; the `try`/`catch` of the source converts both a
synchronous throw and an awaited rejection into the
`unhandled terminal error` report. -/
def handleLine (commands : String → Option (List String → HandlerRun))
    (sanitize : String → String) (started : Bool) (line : String) :
    Except String (List TermEffect) :=
  if jsStartsWith line "/" then
    let parts := jsSplitSpace (jsDrop line 1)
    let cmd := parts.headD ""
    let args := parts.tail
    match commands cmd with
    | none =>
      .ok [.termErr ("unrecognized command /" ++ cmd ++ ". type /help for more info")]
    | some fn =>
      match fn args with
      | .value effects => .ok effects
      | .promiseOk effects => .ok effects
      | .promiseRejected effects e =>
        .ok (effects ++ [.termErr ("unhandled terminal error " ++ e)])
      | .thrown effects e =>
        .ok (effects ++ [.termErr ("unhandled terminal error " ++ e)])
  else if 0 < (jsTrim line).length then
    if started then
      .ok [.broadcast ("\x22[<b><color=\\\x22ff00ff\\\x22>SERVER</></>]: "
             ++ sanitize line ++ "\x22"),
           .logLine ("[SERVER]: " ++ line)]
    else
      .ok [.termErr "Server is not started yet. type /help for more info"]
  else
    .ok []

/-! ### Helper lemmas -/

/-- Whether `needle` occurs as a contiguous run inside `hay`. -/
def subListOf (needle : List Char) : List Char → Bool
  | [] => needle.isPrefixOf []
  | c :: rest => needle.isPrefixOf (c :: rest) || subListOf needle rest

/-- Substring containment between regex sources and their fragments. -/
def strContainsSub (hay needle : String) : Bool :=
  subListOf needle.data hay.data

/-- A concrete environment for the C2 witness: the pawn watcher resolves
with one pawn capture, the position watcher with coordinate captures. -/
def sampleEnv : WatcherCall → Except JsErr (List GroupMap) :=
  fun w =>
    if w = pawnCall "BP_PlayerController_C_5" then
      .ok [[("pawn", "BP_FigureV2_C_9")]]
    else if w = posCall "BP_FigureV2_C_9" then
      .ok [[("x", "1"), ("y", "2.5"), ("z", "-3")]]
    else .error .timeout

/-- The permission names listed in the default role or in any role of
the setup. -/
def hostPermNames (setup : RoleSetup) : List String :=
  setup.defaultRole.permissions.map RolePermEntry.name ++
  (setup.roles.map (fun r => r.permissions.map RolePermEntry.name)).flatten

/-- Role setup for the C9 witness. -/
def sampleHostOmegga : Omegga :=
  ⟨"a1b2", ⟨⟨"default", [⟨"Bricks.ClearOwn", "Allowed"⟩]⟩,
    [⟨"admin", [⟨"Players.Ban", "Allowed"⟩]⟩]⟩, []⟩

/-- Command table for the C10 witness: one registered command whose
handler throws. -/
def sampleCommands : String → Option (List String → HandlerRun) :=
  fun c => if c = "boom" then some (fun _ => .thrown [] "E") else none


/-- Characterisation of `matchLitThenDot`: the text is the literal
followed by exactly one non-line-terminator character. -/
theorem matchLitThenDot_iff (lit : List Char) (d : List Char) :
    matchLitThenDot lit d = true ↔ ∃ c, jsDot c = true ∧ d = lit ++ [c] := by
  induction lit generalizing d with
  | nil =>
    match d with
    | [] => simp [matchLitThenDot]
    | [c] => simp [matchLitThenDot]
    | c1 :: c2 :: rest => simp [matchLitThenDot]
  | cons p ps ih =>
    match d with
    | [] => simp [matchLitThenDot]
    | c :: cs =>
      simp only [matchLitThenDot, Bool.and_eq_true, beq_iff_eq, ih, List.cons_append,
        List.cons.injEq]
      constructor
      · rintro ⟨rfl, c2, hdot, rfl⟩
        exact ⟨c2, hdot, rfl, rfl⟩
      · rintro ⟨c2, hdot, rfl, rfl⟩
        exact ⟨rfl, c2, hdot, rfl⟩

/-- Characterisation of the data regex of the exit matcher. -/
theorem exitDataMatch_iff (d : String) :
    exitDataMatch d = true ↔
      ∃ pre c, (pre = "Shutting down Auth Manager" ∨ pre = "Exiting") ∧
        jsDot c = true ∧ d = pre.push c := by
  unfold exitDataMatch
  rw [Bool.or_eq_true, matchLitThenDot_iff, matchLitThenDot_iff]
  constructor
  · rintro (⟨c, hdot, hd⟩ | ⟨c, hdot, hd⟩)
    · exact ⟨"Shutting down Auth Manager", c, Or.inl rfl, hdot, String.ext hd⟩
    · exact ⟨"Exiting", c, Or.inr rfl, hdot, String.ext hd⟩
  · rintro ⟨pre, c, (rfl | rfl), hdot, rfl⟩
    · exact Or.inl ⟨c, hdot, rfl⟩
    · exact Or.inr ⟨c, hdot, rfl⟩

/-- C4 (amended): the exit matcher's `pattern` is total and never
inspects the raw line; an absent tokenizer result gives a falsy value;
a tokenized line is truthy exactly when the generator is `LogExit` or
`LogAuthManager` and the data is `Shutting down Auth Manager` or
`Exiting` followed by exactly one additional character that the regex
`.` accepts (any character except a line terminator); on a truthy match
the callback emits the `exit` event and nothing else. -/
theorem exit_matcher_total_exact :
    (∀ l1 l2 lm, exitPattern l1 lm = exitPattern l2 lm) ∧
    (∀ l, exitPattern l none = false) ∧
    (∀ l g d, exitPattern l (some ⟨g, d⟩) = true ↔
      ((g = "LogExit" ∨ g = "LogAuthManager") ∧
       ∃ pre c, (pre = "Shutting down Auth Manager" ∨ pre = "Exiting") ∧
         jsDot c = true ∧ d = pre.push c)) ∧
    exitCallbackEvents = ["exit"] := by
  refine ⟨fun l1 l2 lm => rfl, fun l => rfl, fun l g d => ?_, rfl⟩
  simp only [exitPattern, Bool.and_eq_true, exitGeneratorMatch, Bool.or_eq_true, beq_iff_eq,
    exitDataMatch_iff]

/-- C4 witness: a concrete truthy line. -/
theorem exit_matcher_total_exact_witness :
    exitPattern "a" (some ⟨"LogExit", "Exiting!"⟩) = true :=
  (exit_matcher_total_exact.2.2.1 "a" "LogExit" "Exiting!").mpr
    ⟨Or.inl rfl, "Exiting", '!', Or.inr rfl, by decide, by decide⟩

/-- C4 counterexample: with data `Exiting` followed by exactly one
additional character that is a line terminator, the generator test
succeeds yet the pattern returns a falsy value, because the regex `.`
does not match `\r`. -/
theorem exit_pattern_one_char_counterexample :
    exitGeneratorMatch "LogExit" = true ∧
    "Exiting\r" = "Exiting".push '\r' ∧
    exitPattern "" (some ⟨"LogExit", "Exiting\r"⟩) = false := by decide

theorem isPrefixOf_refl (n : List Char) : n.isPrefixOf n = true := by
  induction n with
  | nil => rfl
  | cons a as ih => simp [List.isPrefixOf, ih]

theorem isPrefixOf_append (n l r : List Char) (h : n.isPrefixOf l = true) :
    n.isPrefixOf (l ++ r) = true := by
  induction n generalizing l with
  | nil => simp [List.isPrefixOf]
  | cons a as ih =>
    cases l with
    | nil => simp [List.isPrefixOf] at h
    | cons b bs =>
      simp only [List.cons_append, List.isPrefixOf, Bool.and_eq_true] at h ⊢
      exact ⟨h.1, ih bs h.2⟩

theorem subListOf_of_isPrefixOf (n hay : List Char) (h : n.isPrefixOf hay = true) :
    subListOf n hay = true := by
  cases hay with
  | nil => simpa [subListOf] using h
  | cons c cs => simp [subListOf, h]

theorem subListOf_append_left (n l r : List Char) (h : subListOf n l = true) :
    subListOf n (l ++ r) = true := by
  induction l with
  | nil =>
    cases n with
    | nil => exact subListOf_of_isPrefixOf _ _ (by simp [List.isPrefixOf])
    | cons a as => simp [subListOf, List.isPrefixOf] at h
  | cons c cs ih =>
    simp only [subListOf, Bool.or_eq_true, List.cons_append] at h ⊢
    rcases h with h | h
    · exact Or.inl (isPrefixOf_append _ _ _ h)
    · exact Or.inr (ih h)

theorem subListOf_append_right (n l r : List Char) (h : subListOf n r = true) :
    subListOf n (l ++ r) = true := by
  induction l with
  | nil => simpa using h
  | cons c cs ih =>
    simp only [List.cons_append, subListOf, Bool.or_eq_true]
    exact Or.inr ih

theorem strContainsSub_append_right (a b needle : String)
    (h : strContainsSub b needle = true) : strContainsSub (a ++ b) needle = true := by
  unfold strContainsSub at h ⊢
  rw [String.data_append]
  exact subListOf_append_right _ _ _ h

theorem strContainsSub_mid (pre mid post : String) :
    strContainsSub (pre ++ mid ++ post) mid = true := by
  unfold strContainsSub
  rw [String.data_append, String.data_append]
  exact subListOf_append_left _ _ _
    (subListOf_append_right _ _ _ (subListOf_of_isPrefixOf _ _ (isPrefixOf_refl _)))


/-- C2: `getPosition` performs exactly two single-shot watcher
correlations in sequence, each with `timeoutDelay` 100; the first
watcher's regex embeds the player's controller name and captures a pawn
name; the second embeds the captured pawn and captures x, y, z; the
method resolves with the three captured coordinate strings coerced to
numbers by the caller via `Number` (the match itself carries only
strings). -/
theorem getPosition_two_watchers (env : WatcherCall → Except JsErr (List GroupMap))
    (controller : String) :
    ((getPosition env controller).1 = [pawnCall controller] ∨
     ∃ pawn, (getPosition env controller).1 = [pawnCall controller, posCall pawn]) ∧
    (∀ w ∈ (getPosition env controller).1, w.timeoutDelay = 100) ∧
    (pawnCall controller).pattern = pawnPatternPre ++ controller ++ pawnPatternPost ∧
    strContainsSub (pawnCall controller).pattern controller = true ∧
    strContainsSub (pawnCall controller).pattern "(?<pawn>" = true ∧
    leadingNamedCapture pawnPatternPost = some "pawn" ∧
    (∀ m1 rest, env (pawnCall controller) = .ok (m1 :: rest) →
      (getPosition env controller).1 =
        [pawnCall controller, posCall ((groupOf m1 "pawn").getD "undefined")] ∧
      (posCall ((groupOf m1 "pawn").getD "undefined")).pattern =
        posPatternPre ++ (groupOf m1 "pawn").getD "undefined" ++ posPatternPost ∧
      strContainsSub (posCall ((groupOf m1 "pawn").getD "undefined")).pattern
        ((groupOf m1 "pawn").getD "undefined") = true ∧
      strContainsSub (posCall ((groupOf m1 "pawn").getD "undefined")).pattern "(?<x>" = true ∧
      strContainsSub (posCall ((groupOf m1 "pawn").getD "undefined")).pattern "(?<y>" = true ∧
      strContainsSub (posCall ((groupOf m1 "pawn").getD "undefined")).pattern "(?<z>" = true) ∧
    (∀ m1 r1 m2 r2, env (pawnCall controller) = .ok (m1 :: r1) →
      env (posCall ((groupOf m1 "pawn").getD "undefined")) = .ok (m2 :: r2) →
      (getPosition env controller).2 =
        .ok [jsNumberQ ((groupOf m2 "x").getD "undefined"),
             jsNumberQ ((groupOf m2 "y").getD "undefined"),
             jsNumberQ ((groupOf m2 "z").getD "undefined")]) := by
  have hpawn2 : strContainsSub (pawnCall controller).pattern "(?<pawn>" = true :=
    strContainsSub_append_right (pawnPatternPre ++ controller) pawnPatternPost _ (by decide)
  have hpos : ∀ pawn : String,
      (posCall pawn).pattern = posPatternPre ++ pawn ++ posPatternPost ∧
      strContainsSub (posCall pawn).pattern pawn = true ∧
      strContainsSub (posCall pawn).pattern "(?<x>" = true ∧
      strContainsSub (posCall pawn).pattern "(?<y>" = true ∧
      strContainsSub (posCall pawn).pattern "(?<z>" = true := by
    intro pawn
    refine ⟨rfl, strContainsSub_mid _ _ _, ?_, ?_, ?_⟩ <;>
      exact strContainsSub_append_right (posPatternPre ++ pawn) posPatternPost _ (by decide)
  cases h1 : env (pawnCall controller) with
  | error e =>
    refine ⟨Or.inl ?_, ?_, rfl, strContainsSub_mid _ _ _, hpawn2, by decide, ?_, ?_⟩
    · simp [getPosition, h1]
    · intro w hw
      simp [getPosition, h1] at hw
      subst hw; rfl
    · intro m1 rest h; simp at h
    · intro m1 r1 m2 r2 h; simp at h
  | ok ms =>
    cases ms with
    | nil =>
      refine ⟨Or.inl ?_, ?_, rfl, strContainsSub_mid _ _ _, hpawn2, by decide, ?_, ?_⟩
      · simp [getPosition, h1]
      · intro w hw
        simp [getPosition, h1] at hw
        subst hw; rfl
      · intro m1 rest h; simp at h
      · intro m1 r1 m2 r2 h; simp at h
    | cons m1 r1 =>
      have htrace : (getPosition env controller).1 =
          [pawnCall controller, posCall ((groupOf m1 "pawn").getD "undefined")] := by
        simp only [getPosition, h1]
        cases h2 : env (posCall ((groupOf m1 "pawn").getD "undefined")) with
        | error e => rfl
        | ok ms2 =>
          cases ms2 with
          | nil => rfl
          | cons m2 r2 => rfl
      refine ⟨Or.inr ⟨_, htrace⟩, ?_, rfl, strContainsSub_mid _ _ _, hpawn2, by decide, ?_, ?_⟩
      · intro w hw
        rw [htrace] at hw
        rcases List.mem_cons.mp hw with rfl | hw
        · rfl
        · rcases List.mem_cons.mp hw with rfl | hw
          · rfl
          · cases hw
      · intro m1x restx h
        injection h with h
        injection h with hm hr
        subst hm
        exact ⟨htrace, hpos _⟩
      · intro m1x r1x m2 r2 h h2
        injection h with h
        injection h with hm hr
        subst hm
        simp only [getPosition, h1, h2]

/-- C2 witness: both watchers resolving on a concrete environment. -/
theorem getPosition_two_watchers_witness :
    (getPosition sampleEnv "BP_PlayerController_C_5").1 =
      [pawnCall "BP_PlayerController_C_5", posCall "BP_FigureV2_C_9"] ∧
    (getPosition sampleEnv "BP_PlayerController_C_5").2 =
      .ok [jsNumberQ "1", jsNumberQ "2.5", jsNumberQ "-3"] :=
  ⟨((getPosition_two_watchers sampleEnv "BP_PlayerController_C_5").2.2.2.2.2.2.1
      [("pawn", "BP_FigureV2_C_9")] [] rfl).1,
   (getPosition_two_watchers sampleEnv "BP_PlayerController_C_5").2.2.2.2.2.2.2
      [("pawn", "BP_FigureV2_C_9")] [] [("x", "1"), ("y", "2.5"), ("z", "-3")] []
      rfl rfl⟩

/-- C3: `getPaint` dispatches exactly four chunk queries — Owner,
SelectedColor, SelectedMaterialId and SelectedMaterialAlpha of
`BP_Item_PaintTool_C` — each with `first: 'index'` and
`timeoutDelay: 500`, joined by `Promise.all`: whenever any of the four
correlations rejects, the join rejects without consuming the other
results. -/
theorem getPaint_four_queries_wait_all (controller : String) (mats : List String) :
    paintChunkCalls.length = 4 ∧
    paintChunkCalls.map ChunkCall.cmd =
      ["GetAll BP_Item_PaintTool_C Owner",
       "GetAll BP_Item_PaintTool_C SelectedColor",
       "GetAll BP_Item_PaintTool_C SelectedMaterialId",
       "GetAll BP_Item_PaintTool_C SelectedMaterialAlpha"] ∧
    paintChunkCalls.map ChunkCall.opts =
      [⟨some "index", some 500⟩, ⟨some "index", some 500⟩,
       ⟨some "index", some 500⟩, ⟨some "index", some 500⟩] ∧
    (∀ e c m a, paintFromChunks controller mats (.error e) c m a = .error e) ∧
    (∀ o e m a, paintFromChunks controller mats (.ok o) (.error e) m a = .error e) ∧
    (∀ o c e a, paintFromChunks controller mats (.ok o) (.ok c) (.error e) a = .error e) ∧
    (∀ o c m e, paintFromChunks controller mats (.ok o) (.ok c) (.ok m) (.error e)
       = .error e) := by
  refine ⟨rfl, rfl, rfl, ?_, ?_, ?_, ?_⟩ <;> intros <;> rfl

set_option maxRecDepth 4000 in
/-- C5: every `watchLogChunk` invocation issued by the Player query
methods carries the anchor option `first: 'index'`, and the leading
capture of every supplied pattern is the named group `index`. -/
theorem player_chunk_calls_anchored (controller : String) :
    ∀ call ∈ playerChunkCalls controller,
      call.opts.first = some "index" ∧
      leadingNamedCapture call.pattern = some "index" := by
  intro call h
  simp only [playerChunkCalls, ghostBrickChunkCalls, paintChunkCalls,
    templateBoundsChunkCalls, List.mem_append, List.mem_cons,
    List.not_mem_nil, or_false] at h
  rcases h with ((rfl | rfl) | rfl | rfl | rfl | rfl) | rfl | rfl | rfl | rfl
  case inr.inl =>
    exact ⟨rfl, show leadingNamedCapture brickTemplatePattern = some "index" by decide⟩
  all_goals exact ⟨rfl, by decide⟩

set_option maxRecDepth 4000 in
/-- C5 witness: the first ghost-brick query is anchored on `index`. -/
theorem player_chunk_calls_anchored_witness :
    (⟨"GetAll BrickGridPreviewActor Owner", ghostOwnerPattern,
      ⟨some "index", some 500⟩⟩ : ChunkCall).opts.first = some "index" ∧
    leadingNamedCapture ghostOwnerPattern = some "index" :=
  player_chunk_calls_anchored "BP_PlayerController_C_0" _
    (by simp [playerChunkCalls, ghostBrickChunkCalls, paintChunkCalls,
      templateBoundsChunkCalls])

/-- C6 (modelled from the spec): in `AwaitingAnchor` a matching line
whose anchor capture is not the sentinel `"0"` is discarded without a
state change; non-matching lines change nothing; once accumulating,
every match is appended in arrival order; and the spec's example stream
accumulates `[a, b, c]`, discarding the stray leading `2) x`. -/
theorem collector_anchor_spec :
    (∀ st m, st.accumulating = false → m.index ≠ "0" →
       collectorStep st (some m) = st) ∧
    (∀ st, collectorStep st none = st) ∧
    (∀ st m, st.accumulating = true →
       collectorStep st (some m) = ⟨true, st.acc ++ [m]⟩) ∧
    (collectorRun ["2) x", "0) a", "1) b", "2) c"]).acc.map ChunkMatch.val
      = ["a", "b", "c"] := by
  refine ⟨?_, fun st => rfl, ?_, by decide⟩
  · intro st m h0 hne
    simp [collectorStep, h0, hne]
  · intro st m h1
    simp [collectorStep, h1]

/-- C6 witness: a fresh collector discards the pre-anchor match `2) x`. -/
theorem collector_anchor_spec_witness :
    collectorStep collectorInit (some ⟨"2", "x"⟩) = collectorInit :=
  collector_anchor_spec.1 collectorInit ⟨"2", "x"⟩ rfl (by decide)

/-- C7 counterexample: the player module does publish a name on the
implicit JS global object (`global.Player = Player`), so its list of
global bindings is not empty. -/
theorem player_global_binding_counterexample :
    "Player" ∈ playerModuleGlobalBindings ∧ playerModuleGlobalBindings ≠ [] := by
  decide

/-- C7 (amended): Player instances reach the supervised session only
through the Omegga reference passed to the constructor — `getOmegga`,
`clone`, `isHost` and the role/permission queries all consult that
stored reference — but the player module additionally publishes the
`Player` class as an implicit global binding. -/
theorem player_context_passing_amended (o : Omegga) (n i c s : String) :
    (Player.mk o n i c s).getOmegga = o ∧
    ((Player.mk o n i c s).clone).getOmegga = o ∧
    (Player.mk o n i c s).isHost = (o.hostId == i) ∧
    (Player.mk o n i c s).permissionsOf = Player.getPermissions o i ∧
    (Player.mk o n i c s).rolesOf = Player.getRoles o i ∧
    "Player" ∈ playerModuleGlobalBindings :=
  ⟨rfl, rfl, rfl, rfl, rfl, by decide⟩

/-- C8: `clone` reproduces name, id, controller, state and the same
Omegga instance; `raw` lists exactly the four constructor fields, and
feeding them back into the constructor with the same Omegga reproduces
the player (all operations are pure in this embedding, so `p` itself is
unchanged). -/
theorem player_clone_raw_roundtrip (p : Player) :
    p.clone.name = p.name ∧ p.clone.id = p.id ∧
    p.clone.controller = p.controller ∧ p.clone.state = p.state ∧
    p.clone.getOmegga = p.getOmegga ∧
    p.raw = (p.name, p.id, p.controller, p.state) ∧
    Player.mk p.getOmegga p.raw.1 p.raw.2.1 p.raw.2.2.1 p.raw.2.2.2 = p :=
  ⟨rfl, rfl, rfl, rfl, rfl, rfl, rfl⟩

/-- C1 counterexample: a timed-out underlying correlation is not
converted into an empty/undefined result — `getGhostBrick` installs no
rejection handler, so the timeout failure of the owners query surfaces
as a rejection of the whole query instead of resolving with
`undefined`. -/
theorem ghostBrick_timeout_counterexample :
    ghostBrickFromChunks "BP_PlayerController_C_0" (.error .timeout) (.ok [])
      = .error .timeout ∧
    ghostBrickFromChunks "BP_PlayerController_C_0" (.error .timeout) (.ok [])
      ≠ .ok none :=
  ⟨rfl, fun h => Except.noConfusion h⟩

/-- C1 (amended): when every chunk query resolves, missing data is a
valid outcome — if the collected sequences contain no entry matching the
player's controller, or no entry for the found actor or template, each
derived query resolves with `undefined` rather than returning partial
data; a timeout failure of an underlying correlation, however,
propagates as a rejection of the query. -/
theorem derived_queries_missing_data_undefined :
    (∀ c (owners : List GhostOwnerMatch) (tps : List GhostTransformMatch),
       (∀ o ∈ owners, o.controller ≠ c) →
       ghostBrickFromChunks c (.ok owners) (.ok tps) = .ok none) ∧
    (∀ c owners (tps : List GhostTransformMatch) ow,
       owners.find? (fun o => o.controller == c) = some ow →
       (∀ t ∈ tps, t.actor ≠ ow.actor) →
       ghostBrickFromChunks c (.ok owners) (.ok tps) = .ok none) ∧
    (∀ c mats (owners : List PaintOwnerMatch) (cl : List PaintColorMatch)
       (m : List PaintMaterialMatch) (a : List PaintAlphaMatch),
       (∀ o ∈ owners, o.controller ≠ c) →
       paintFromChunks c mats (.ok owners) (.ok cl) (.ok m) (.ok a) = .ok none) ∧
    (∀ c mats owners (cl : List PaintColorMatch) m a ow,
       owners.find? (fun o => o.controller == c) = some ow →
       (∀ x ∈ cl, x.actor ≠ ow.actor) →
       paintFromChunks c mats (.ok owners) (.ok cl) (.ok m) (.ok a) = .ok none) ∧
    (∀ c mats owners cl (m : List PaintMaterialMatch) a ow,
       owners.find? (fun o => o.controller == c) = some ow →
       (∀ x ∈ m, x.actor ≠ ow.actor) →
       paintFromChunks c mats (.ok owners) (.ok cl) (.ok m) (.ok a) = .ok none) ∧
    (∀ c mats owners cl m (a : List PaintAlphaMatch) ow,
       owners.find? (fun o => o.controller == c) = some ow →
       (∀ x ∈ a, x.actor ≠ ow.actor) →
       paintFromChunks c mats (.ok owners) (.ok cl) (.ok m) (.ok a) = .ok none) ∧
    (∀ (mn mx ce : List TemplateBoundMatch),
       templateBoundsFromChunks (.ok []) (.ok mn) (.ok mx) (.ok ce) = .ok none) ∧
    (∀ t0 (ts : List TemplateNameMatch) (mn mx ce : List TemplateBoundMatch),
       (∀ b ∈ mn, b.templateName ≠ t0.templateName) →
       templateBoundsFromChunks (.ok (t0 :: ts)) (.ok mn) (.ok mx) (.ok ce) = .ok none) ∧
    (∀ t0 (ts : List TemplateNameMatch) (mn mx ce : List TemplateBoundMatch),
       (∀ b ∈ mx, b.templateName ≠ t0.templateName) →
       templateBoundsFromChunks (.ok (t0 :: ts)) (.ok mn) (.ok mx) (.ok ce) = .ok none) ∧
    (∀ t0 (ts : List TemplateNameMatch) (mn mx ce : List TemplateBoundMatch),
       (∀ b ∈ ce, b.templateName ≠ t0.templateName) →
       templateBoundsFromChunks (.ok (t0 :: ts)) (.ok mn) (.ok mx) (.ok ce) = .ok none) := by
  refine ⟨?_, ?_, ?_, ?_, ?_, ?_, ?_, ?_, ?_, ?_⟩
  · intro c owners tps hnone
    have hfind : owners.find? (fun o => o.controller == c) = none :=
      List.find?_eq_none.mpr (fun o ho => by simpa using hnone o ho)
    simp [ghostBrickFromChunks, hfind]
  · intro c owners tps ow how hnone
    have hfind : tps.find? (fun t => t.actor == ow.actor) = none :=
      List.find?_eq_none.mpr (fun t ht => by simpa using hnone t ht)
    simp [ghostBrickFromChunks, how, hfind]
  · intro c mats owners cl m a hnone
    have hfind : owners.find? (fun o => o.controller == c) = none :=
      List.find?_eq_none.mpr (fun o ho => by simpa using hnone o ho)
    simp [paintFromChunks, hfind]
  · intro c mats owners cl m a ow how hnone
    have hfind : cl.find? (fun x => x.actor == ow.actor) = none :=
      List.find?_eq_none.mpr (fun x hx => by simpa using hnone x hx)
    cases hm : m.find? (fun x => x.actor == ow.actor) <;>
      cases ha : a.find? (fun x => x.actor == ow.actor) <;>
        simp [paintFromChunks, how, hfind, hm, ha]
  · intro c mats owners cl m a ow how hnone
    have hfind : m.find? (fun x => x.actor == ow.actor) = none :=
      List.find?_eq_none.mpr (fun x hx => by simpa using hnone x hx)
    cases hc : cl.find? (fun x => x.actor == ow.actor) <;>
      cases ha : a.find? (fun x => x.actor == ow.actor) <;>
        simp [paintFromChunks, how, hfind, hc, ha]
  · intro c mats owners cl m a ow how hnone
    have hfind : a.find? (fun x => x.actor == ow.actor) = none :=
      List.find?_eq_none.mpr (fun x hx => by simpa using hnone x hx)
    cases hc : cl.find? (fun x => x.actor == ow.actor) <;>
      cases hm : m.find? (fun x => x.actor == ow.actor) <;>
        simp [paintFromChunks, how, hfind, hc, hm]
  · intro mn mx ce
    rfl
  · intro t0 ts mn mx ce hnone
    have hfind : mn.find? (fun b => b.templateName == t0.templateName) = none :=
      List.find?_eq_none.mpr (fun b hb => by simpa using hnone b hb)
    by_cases hlen : mn.length = 0 ∨ mx.length = 0 ∨ ce.length = 0
    · rcases hlen with h | h | h <;> rcases List.length_eq_zero.mp h with rfl <;>
        simp [templateBoundsFromChunks]
    · cases hx : mx.find? (fun b => b.templateName == t0.templateName) <;>
        cases hc : ce.find? (fun b => b.templateName == t0.templateName) <;>
          simp [templateBoundsFromChunks, hlen, hfind, hx, hc]
  · intro t0 ts mn mx ce hnone
    have hfind : mx.find? (fun b => b.templateName == t0.templateName) = none :=
      List.find?_eq_none.mpr (fun b hb => by simpa using hnone b hb)
    by_cases hlen : mn.length = 0 ∨ mx.length = 0 ∨ ce.length = 0
    · rcases hlen with h | h | h <;> rcases List.length_eq_zero.mp h with rfl <;>
        simp [templateBoundsFromChunks]
    · cases hn : mn.find? (fun b => b.templateName == t0.templateName) <;>
        cases hc : ce.find? (fun b => b.templateName == t0.templateName) <;>
          simp [templateBoundsFromChunks, hlen, hfind, hn, hc]
  · intro t0 ts mn mx ce hnone
    have hfind : ce.find? (fun b => b.templateName == t0.templateName) = none :=
      List.find?_eq_none.mpr (fun b hb => by simpa using hnone b hb)
    by_cases hlen : mn.length = 0 ∨ mx.length = 0 ∨ ce.length = 0
    · rcases hlen with h | h | h <;> rcases List.length_eq_zero.mp h with rfl <;>
        simp [templateBoundsFromChunks]
    · cases hn : mn.find? (fun b => b.templateName == t0.templateName) <;>
        cases hx : mx.find? (fun b => b.templateName == t0.templateName) <;>
          simp [templateBoundsFromChunks, hlen, hfind, hn, hx]

/-- C1 witness: all chunk queries resolving with empty sequences makes
each derived query resolve with `undefined`. -/
theorem derived_queries_missing_data_undefined_witness :
    ghostBrickFromChunks "BP_PlayerController_C_0" (.ok []) (.ok []) = .ok none ∧
    paintFromChunks "BP_PlayerController_C_0" [] (.ok []) (.ok []) (.ok []) (.ok [])
      = .ok none ∧
    templateBoundsFromChunks (.ok []) (.ok []) (.ok []) (.ok []) = .ok none :=
  ⟨derived_queries_missing_data_undefined.1 "BP_PlayerController_C_0" [] [] (by simp),
   derived_queries_missing_data_undefined.2.2.1 "BP_PlayerController_C_0" [] [] [] [] []
     (by simp),
   derived_queries_missing_data_undefined.2.2.2.2.2.2.1 [] [] []⟩

/-- Key membership after a JS property write. -/
theorem objHas_objSet (o : JsObj) (k1 k : String) (v : Option Bool) :
    objHas (objSet o k1 v) k = true ↔ (objHas o k = true ∨ k = k1) := by
  unfold objSet objHas
  split
  · rename_i hhas
    rw [List.any_map]
    simp only [List.any_eq_true, Function.comp_apply, beq_iff_eq] at hhas ⊢
    constructor
    · rintro ⟨e, he, hk⟩
      by_cases hek : e.1 = k1
      · rw [if_pos hek] at hk
        exact Or.inr hk.symm
      · rw [if_neg hek] at hk
        exact Or.inl ⟨e, he, hk⟩
    · intro hor
      obtain ⟨e1, he1, hk1⟩ := hhas
      rcases hor with ⟨e, he, hk⟩ | heq
      · by_cases hek : e.1 = k1
        · refine ⟨e1, he1, ?_⟩
          rw [if_pos hk1]
          rw [hek] at hk
          exact hk
        · exact ⟨e, he, by rw [if_neg hek]; exact hk⟩
      · refine ⟨e1, he1, ?_⟩
        rw [if_pos hk1]
        exact heq.symm
  · rename_i hhas
    simp only [List.any_append, List.any_cons, List.any_nil, Bool.or_false,
      Bool.or_eq_true, List.any_eq_true, beq_iff_eq]
    constructor
    · rintro (h | h)
      · exact Or.inl h
      · exact Or.inr h.symm
    · rintro (h | h)
      · exact Or.inl h
      · exact Or.inr h.symm

/-- Key membership after folding JS property writes over a list of
entries. -/
theorem objHas_foldl (l : List (String × Option Bool)) (acc : JsObj) (k : String) :
    objHas (l.foldl (fun o e => objSet o e.1 e.2) acc) k = true ↔
      (objHas acc k = true ∨ k ∈ l.map Prod.fst) := by
  induction l generalizing acc with
  | nil => simp
  | cons e rest ih =>
    simp only [List.foldl_cons, List.map_cons, List.mem_cons]
    rw [ih, objHas_objSet]
    tauto

/-- A JS property write preserves a property of all stored values. -/
theorem objSet_values (o : JsObj) (k : String) (v : Option Bool)
    (P : Option Bool → Prop) (ho : ∀ e ∈ o, P e.2) (hv : P v) :
    ∀ e ∈ objSet o k v, P e.2 := by
  unfold objSet
  split
  · intro e he
    obtain ⟨a, ha, rfl⟩ := List.mem_map.mp he
    by_cases hak : a.1 = k
    · simpa [hak] using hv
    · simpa [hak] using ho a ha
  · intro e he
    rcases List.mem_append.mp he with h | h
    · exact ho e h
    · rcases List.mem_singleton.mp h with rfl
      exact hv

/-- Folding JS property writes preserves a property of all values. -/
theorem foldl_objSet_values (l : List (String × Option Bool))
    (P : Option Bool → Prop) :
    ∀ acc : JsObj, (∀ e ∈ l, P e.2) → (∀ e ∈ acc, P e.2) →
      ∀ e ∈ l.foldl (fun o e => objSet o e.1 e.2) acc, P e.2 := by
  induction l with
  | nil =>
    intro acc hl hacc
    simpa using hacc
  | cons a rest ih =>
    intro acc hl hacc
    simp only [List.foldl_cons]
    exact ih _ (fun e he => hl e (List.mem_cons_of_mem _ he))
      (objSet_values _ _ _ _ hacc (hl a (List.mem_cons_self _ _)))

theorem hostPermEntries_map_fst (setup : RoleSetup) :
    (hostPermEntries setup).map Prod.fst = hostPermNames setup := by
  simp [hostPermEntries, hostPermNames, List.map_flatten, List.map_map, Function.comp_def]

theorem hostPermEntries_values (setup : RoleSetup) :
    ∀ e ∈ hostPermEntries setup, e.2 = some true := by
  intro e he
  rcases List.mem_append.mp he with h | h
  · obtain ⟨p, hp, rfl⟩ := List.mem_map.mp h
    rfl
  · obtain ⟨l, hl, hel⟩ := List.mem_flatten.mp h
    obtain ⟨r, hr, rfl⟩ := List.mem_map.mp hl
    obtain ⟨p, hp, rfl⟩ := List.mem_map.mp hel
    rfl

/-- C9: for a player id equal to the host's id, the permissions map
`Player.getPermissions` returns is frozen, its keys are exactly the
permission names appearing in the default role or in any role of the
setup, and every stored value is `true`. -/
theorem host_permissions_spec (omegga : Omegga) (id : String)
    (h : omegga.hostId = id) :
    (Player.getPermissions omegga id).frozen = true ∧
    (∀ n, objHas (Player.getPermissions omegga id).entries n = true ↔
       n ∈ hostPermNames omegga.roleSetup) ∧
    (∀ e ∈ (Player.getPermissions omegga id).entries, e.2 = some true) := by
  have hperm : Player.getPermissions omegga id =
      ⟨objFromEntries (hostPermEntries omegga.roleSetup), true⟩ := by
    simp only [Player.getPermissions]
    rw [if_pos h]
  rw [hperm]
  refine ⟨rfl, ?_, ?_⟩
  · intro n
    unfold objFromEntries
    rw [objHas_foldl, hostPermEntries_map_fst]
    simp [objHas]
  · intro e he
    exact foldl_objSet_values (hostPermEntries omegga.roleSetup)
      (fun v => v = some true) [] (hostPermEntries_values _) (by simp) e he

/-- C9 witness: the host of a concrete role setup. -/
theorem host_permissions_spec_witness :
    (Player.getPermissions sampleHostOmegga "a1b2").frozen = true ∧
    (∀ n, objHas (Player.getPermissions sampleHostOmegga "a1b2").entries n = true ↔
       n ∈ hostPermNames sampleHostOmegga.roleSetup) ∧
    (∀ e ∈ (Player.getPermissions sampleHostOmegga "a1b2").entries, e.2 = some true) :=
  host_permissions_spec sampleHostOmegga "a1b2" rfl

/-- Reduction of `handleLine` on a `/`-line with a registered command. -/
theorem handleLine_slash_eq (commands : String → Option (List String → HandlerRun))
    (sanitize : String → String) (started : Bool) (line : String)
    (fn : List String → HandlerRun)
    (h1 : jsStartsWith line "/" = true)
    (hsome : commands ((jsSplitSpace (jsDrop line 1)).headD "") = some fn) :
    handleLine commands sanitize started line =
      (match fn (jsSplitSpace (jsDrop line 1)).tail with
       | .value effects => .ok effects
       | .promiseOk effects => .ok effects
       | .promiseRejected effects e =>
         .ok (effects ++ [.termErr ("unhandled terminal error " ++ e)])
       | .thrown effects e =>
         .ok (effects ++ [.termErr ("unhandled terminal error " ++ e)])) := by
  simp only [handleLine, if_pos h1, hsome]

/-- Reduction of `handleLine` on a `/`-line with an unknown command. -/
theorem handleLine_unknown_eq (commands : String → Option (List String → HandlerRun))
    (sanitize : String → String) (started : Bool) (line : String)
    (h1 : jsStartsWith line "/" = true)
    (hnone : commands ((jsSplitSpace (jsDrop line 1)).headD "") = none) :
    handleLine commands sanitize started line =
      .ok [.termErr ("unrecognized command /" ++ (jsSplitSpace (jsDrop line 1)).headD ""
        ++ ". type /help for more info")] := by
  simp only [handleLine, if_pos h1, hnone]

/-- C10: `Terminal.handleLine` never propagates an exception for any
input line: a handler's synchronous throw or awaited rejection is caught
and reported as a terminal error; a `/`-line whose command is not
registered only prints an error and runs no handler; a non-`/` line that
is empty or whitespace-only produces no broadcast and no effect at
all. -/
theorem handleLine_total_spec
    (commands : String → Option (List String → HandlerRun))
    (sanitize : String → String) (started : Bool) (line : String) :
    (∃ effs, handleLine commands sanitize started line = .ok effs) ∧
    (∀ cmd, jsStartsWith line "/" = true →
       cmd = (jsSplitSpace (jsDrop line 1)).headD "" →
       commands cmd = none →
       handleLine commands sanitize started line =
         .ok [.termErr ("unrecognized command /" ++ cmd ++
           ". type /help for more info")]) ∧
    (∀ fn effects e, jsStartsWith line "/" = true →
       commands ((jsSplitSpace (jsDrop line 1)).headD "") = some fn →
       (fn (jsSplitSpace (jsDrop line 1)).tail = .thrown effects e ∨
        fn (jsSplitSpace (jsDrop line 1)).tail = .promiseRejected effects e) →
       handleLine commands sanitize started line =
         .ok (effects ++ [.termErr ("unhandled terminal error " ++ e)])) ∧
    (jsStartsWith line "/" = false → jsTrim line = "" →
       handleLine commands sanitize started line = .ok []) := by
  refine ⟨?_, ?_, ?_, ?_⟩
  · by_cases h1 : jsStartsWith line "/" = true
    · cases hc : commands ((jsSplitSpace (jsDrop line 1)).headD "") with
      | none =>
        exact ⟨_, handleLine_unknown_eq commands sanitize started line h1 hc⟩
      | some fn =>
        rw [handleLine_slash_eq commands sanitize started line fn h1 hc]
        cases fn (jsSplitSpace (jsDrop line 1)).tail <;> exact ⟨_, rfl⟩
    · simp only [handleLine, if_neg h1]
      by_cases h2 : 0 < (jsTrim line).length
      · rw [if_pos h2]
        cases started
        · exact ⟨_, rfl⟩
        · exact ⟨_, rfl⟩
      · rw [if_neg h2]
        exact ⟨_, rfl⟩
  · intro cmd h1 hcmd hnone
    subst hcmd
    exact handleLine_unknown_eq commands sanitize started line h1 hnone
  · intro fn effects e h1 hsome hor
    rw [handleLine_slash_eq commands sanitize started line fn h1 hsome]
    rcases hor with hf | hf <;> rw [hf]
  · intro h1 h2
    have h1f : ¬jsStartsWith line "/" = true := by simp [h1]
    simp only [handleLine, if_neg h1f, h2]
    simp

/-- C10 witness: a throwing handler is caught and reported; a
whitespace-only line produces no effect. -/
theorem handleLine_total_spec_witness :
    handleLine sampleCommands id true "/boom now" =
      .ok [.termErr "unhandled terminal error E"] ∧
    handleLine sampleCommands id true "  " = .ok [] :=
  ⟨(handleLine_total_spec sampleCommands id true "/boom now").2.2.1
     (fun _ => .thrown [] "E") [] "E" (by decide) rfl (Or.inl rfl),
   (handleLine_total_spec sampleCommands id true "  ").2.2.2 (by decide) (by decide)⟩

/-- C3 witness: the call count and the wait-all short-circuit at a
concrete rejection. -/
theorem getPaint_four_queries_wait_all_witness :
    paintChunkCalls.length = 4 ∧
    paintFromChunks "BP_PlayerController_C_0" [] (.error .timeout)
      (.ok []) (.ok []) (.ok []) = .error .timeout :=
  ⟨(getPaint_four_queries_wait_all "BP_PlayerController_C_0" []).1,
   (getPaint_four_queries_wait_all "BP_PlayerController_C_0" []).2.2.2.1
     .timeout (.ok []) (.ok []) (.ok [])⟩

/-- C7 witness: a concrete player built from a passed-in context. -/
theorem player_context_passing_amended_witness :
    (Player.mk sampleHostOmegga "n" "i" "c" "s").getOmegga = sampleHostOmegga ∧
    "Player" ∈ playerModuleGlobalBindings :=
  ⟨(player_context_passing_amended sampleHostOmegga "n" "i" "c" "s").1,
   (player_context_passing_amended sampleHostOmegga "n" "i" "c" "s").2.2.2.2.2⟩

/-- C8 witness: clone/raw on a concrete player. -/
theorem player_clone_raw_roundtrip_witness :
    (Player.mk sampleHostOmegga "n" "i" "c" "s").clone.name = "n" ∧
    (Player.mk sampleHostOmegga "n" "i" "c" "s").raw = ("n", "i", "c", "s") :=
  ⟨(player_clone_raw_roundtrip (Player.mk sampleHostOmegga "n" "i" "c" "s")).1,
   (player_clone_raw_roundtrip (Player.mk sampleHostOmegga "n" "i" "c" "s")).2.2.2.2.2.1⟩
